import Mathlib

/-!
Verification of the camera-controller core of the repository
(src/src/main.rs): the `orbit`, `zoom` and `draw_cursor` systems
operating on the shared `CameraSettings` record and the camera's
transform/projection.

Modelling conventions.

* All `f32` scalars are modelled as real numbers; the floating-point
  tolerances (`f32::EPSILON`) in the engine's plane-intersection test are
  idealized to exact comparisons with zero.
* `Vec2`/`Vec3` are records of reals mirroring glam's vectors; only the
  operations the code uses are defined.
* The camera's rotation quaternion is represented by its YXZ Euler triple
  (yaw, pitch, roll).  The Rust code stores a `Quat` and converts with
  `to_euler(EulerRot::YXZ)` / `Quat::from_euler(EulerRot::YXZ, ..)`; over
  the reals this round trip is the identity on the triple whenever the
  pitch lies in the principal range (-pi/2, pi/2) (yaw and roll up to
  multiples of 2*pi, which no claim observes), and the pitch clamp in
  `orbit` keeps the pitch in that range.  `Rotation.forward` is the closed
  form of `rotation * -Z`, i.e. of `Transform::forward()`.
* `Camera::viewport_to_world`, `Ray3d::intersect_plane` and
  `Ray3d::get_point` are engine (Bevy) code, not code of this repository.
  `get_point` and `intersect_plane` have fixed, documented semantics and
  are defined below from the spec's description; `viewport_to_world`
  depends on the whole projection pipeline and is taken as an explicit
  fallible parameter of `draw_cursor`, with concrete camera models
  (orthographic-style and pinhole-style) instantiated where a claim needs
  them.
-/
/-- Two-dimensional real vector, mirroring glam's `Vec2`. -/
structure Vec2 where
  x : ℝ
  y : ℝ

/-- Three-dimensional real vector, mirroring glam's `Vec3`. -/
structure Vec3 where
  x : ℝ
  y : ℝ
  z : ℝ

instance : Add Vec2 := ⟨fun a b => ⟨a.x + b.x, a.y + b.y⟩⟩

instance : Neg Vec2 := ⟨fun a => ⟨-a.x, -a.y⟩⟩

instance : Add Vec3 := ⟨fun a b => ⟨a.x + b.x, a.y + b.y, a.z + b.z⟩⟩

instance : Sub Vec3 := ⟨fun a b => ⟨a.x - b.x, a.y - b.y, a.z - b.z⟩⟩

instance : Neg Vec3 := ⟨fun a => ⟨-a.x, -a.y, -a.z⟩⟩

instance : SMul ℝ Vec3 := ⟨fun t a => ⟨t * a.x, t * a.y, t * a.z⟩⟩

/-- Dot product of two `Vec3`, mirroring glam's `Vec3::dot`. -/
def Vec3.dot (a b : Vec3) : ℝ := a.x * b.x + a.y * b.y + a.z * b.z

/-- Euclidean length of a `Vec3`, mirroring glam's `Vec3::length`. -/
noncomputable def Vec3.length (a : Vec3) : ℝ :=
  Real.sqrt (a.x ^ 2 + a.y ^ 2 + a.z ^ 2)

/-- YXZ Euler representation of the camera's rotation quaternion: the
triple returned by `Quat::to_euler(EulerRot::YXZ)` and consumed by
`Quat::from_euler(EulerRot::YXZ, yaw, pitch, roll)`. -/
structure Rotation where
  yaw : ℝ
  pitch : ℝ
  roll : ℝ

/-- Forward direction of a camera with this rotation: the closed form of
`rotation * -Z` for `Quat::from_euler(EulerRot::YXZ, yaw, pitch, roll)`
(the roll, a rotation about Z, fixes -Z and does not appear).  This is
what Bevy's `Transform::forward()` returns; it is a unit vector. -/
noncomputable def Rotation.forward (r : Rotation) : Vec3 :=
  ⟨-(Real.cos r.pitch * Real.sin r.yaw),
    Real.sin r.pitch,
    -(Real.cos r.pitch * Real.cos r.yaw)⟩

/-- The camera's `Transform` component: translation plus rotation (the
rotation kept in YXZ Euler form, see module comment). -/
structure Transform where
  translation : Vec3
  rotation : Rotation

/-- A `Range<f32>` as in `std::ops::Range` (the Rust field `end` is a Lean
keyword and is called `stop` here). -/
structure RangeF where
  start : ℝ
  stop : ℝ

/-- The `CameraSettings` resource of src/src/main.rs, field for field. -/
structure CameraSettings where
  orbit_distance : ℝ
  pitch_speed : ℝ
  yaw_speed : ℝ
  should_focus_at : Vec3
  orthographic_viewport_height : ℝ
  orthographic_zoom_range : RangeF
  orthographic_zoom_speed : ℝ
  perspective_zoom_range : RangeF
  perspective_zoom_speed : ℝ

/-- The `Default for CameraSettings` impl of src/src/main.rs. -/
noncomputable def CameraSettings.default : CameraSettings where
  orbit_distance := 20
  pitch_speed := 0.01
  yaw_speed := 0.01
  should_focus_at := ⟨0, 0, 0⟩
  orthographic_viewport_height := 5
  orthographic_zoom_range := ⟨0.1, 10⟩
  orthographic_zoom_speed := 0.2
  perspective_zoom_range := ⟨Real.pi / 20, Real.pi - 0.2⟩
  perspective_zoom_speed := 0.05

/-- Rust's `f32::clamp(self, min, max)`: `if self < min { min } else if
self > max { max } else { self }` (over the reals). -/
noncomputable def fclamp (x lo hi : ℝ) : ℝ :=
  if x < lo then lo else if hi < x then hi else x

/-- The pitch limit `PITCH_LIMIT: f32 = FRAC_PI_2 - 0.01` of `orbit`. -/
noncomputable def PITCH_LIMIT : ℝ := Real.pi / 2 - 0.01

/-- The `orbit` system of src/src/main.rs.  Inputs: the camera settings
resource, whether the middle mouse button is pressed, the accumulated
mouse-motion delta, and the camera's `Transform`; it returns the updated
`Transform`. -/
noncomputable def orbit (camera_settings : CameraSettings)
    (middle_pressed : Bool) (delta : Vec2) (camera : Transform) :
    Transform :=
  if middle_pressed then
    let delta_pitch := delta.y * camera_settings.pitch_speed
    let delta_yaw := delta.x * camera_settings.yaw_speed
    let yaw := camera.rotation.yaw
    let pitch := camera.rotation.pitch
    let roll := camera.rotation.roll
    let pitch2 := fclamp (pitch + delta_pitch) (-PITCH_LIMIT) PITCH_LIMIT
    let yaw2 := yaw + delta_yaw
    let rotation2 : Rotation := ⟨yaw2, pitch2, roll⟩
    { translation :=
        camera_settings.should_focus_at -
          camera_settings.orbit_distance • rotation2.forward
      rotation := rotation2 }
  else
    camera

/-- The `scale` field of Bevy's `OrthographicProjection` together with the
other scalar per-projection data the zoom controller must not touch
(near/far planes and the viewport origin). -/
structure OrthographicProjection where
  scale : ℝ
  near : ℝ
  far : ℝ
  viewport_origin : Vec2

/-- Bevy's `PerspectiveProjection`: field of view plus the fields the zoom
controller must not touch. -/
structure PerspectiveProjection where
  fov : ℝ
  aspect : ℝ
  near : ℝ
  far : ℝ

/-- Bevy's `Projection` component: a tagged union of a perspective
projection, an orthographic projection, and a custom projection (the
custom payload type is abstract here). -/
inductive Projection (α : Type) where
  | Perspective (p : PerspectiveProjection)
  | Orthographic (o : OrthographicProjection)
  | Custom (c : α)

/-- The `zoom` system of src/src/main.rs.  Inputs: the camera settings
resource, the accumulated mouse-wheel delta, and the camera's
`Projection`; it returns the updated `Projection`.  (The system's only
mutable access is this `Projection` component.) -/
noncomputable def zoom {α : Type} (camera_settings : CameraSettings)
    (wheel_delta : Vec2) : Projection α → Projection α
  | Projection.Orthographic o =>
      let delta_zoom := -wheel_delta.y * camera_settings.orthographic_zoom_speed
      let multiplicative_zoom := 1 + delta_zoom
      Projection.Orthographic
        { o with
          scale := fclamp (o.scale * multiplicative_zoom)
            camera_settings.orthographic_zoom_range.start
            camera_settings.orthographic_zoom_range.stop }
  | Projection.Perspective p =>
      let delta_zoom := -wheel_delta.y * camera_settings.perspective_zoom_speed
      Projection.Perspective
        { p with
          fov := fclamp (p.fov + delta_zoom)
            camera_settings.perspective_zoom_range.start
            camera_settings.perspective_zoom_range.stop }
  | Projection.Custom c => Projection.Custom c

/-- A ray in world space, mirroring Bevy's `Ray3d` (the direction is kept
unnormalized: all uses below go through `get_point` at the distance that
`intersect_plane` returns, and that point is invariant under rescaling of
the direction). -/
structure Ray3d where
  origin : Vec3
  direction : Vec3

/-- Bevy's `Ray3d::get_point(distance)`: `origin + direction * distance`. -/
noncomputable def Ray3d.get_point (r : Ray3d) (distance : ℝ) : Vec3 :=
  r.origin + distance • r.direction

/-- Modelled from the spec: Bevy's `Ray3d::intersect_plane`, engine code
not in this repository.  The spec describes it as intersecting the ray
with the infinite plane through `plane_origin` with normal `normal`,
failing when the ray is parallel to or diverging from the plane; Bevy
computes `distance = (plane_origin - origin).dot(normal) / normal.dot(dir)`
and returns it when the denominator is nonzero and the distance positive
(the `f32::EPSILON` tolerances are idealized to exact zero tests). -/
noncomputable def Ray3d.intersect_plane (r : Ray3d)
    (plane_origin : Vec3) (normal : Vec3) : Option ℝ :=
  let denom := normal.dot r.direction
  if denom = 0 then none
  else
    let distance := (plane_origin - r.origin).dot normal / denom
    if distance ≤ 0 then none else some distance

/-- Result of one `draw_cursor` invocation: the (possibly updated) camera
transform and settings, and the centre of the gizmo circle when one is
drawn (`none` when the system draws nothing). -/
structure DrawCursorResult where
  camera : Transform
  settings : CameraSettings
  gizmo : Option Vec3

/-- The `draw_cursor` system of src/src/main.rs.  `viewport_to_world`
stands for the engine's fallible `Camera::viewport_to_world` for the
current camera (see module comment); `ground_translation` / `ground_up`
are `ground.translation()` and `ground.up()` of the ground entity's
`GlobalTransform`; `cursor_position` is `window.cursor_position()`;
`mouse_delta` is `mouse_motion.delta`.  Every failure (`let .. else
return`) yields the input state unchanged and no gizmo. -/
noncomputable def draw_cursor
    (viewport_to_world : Transform → Vec2 → Option Ray3d)
    (ground_translation ground_up : Vec3)
    (left_pressed : Bool) (mouse_delta : Vec2)
    (cursor_position : Option Vec2)
    (camera : Transform) (camera_settings : CameraSettings) :
    DrawCursorResult :=
  match cursor_position with
  | none => ⟨camera, camera_settings, none⟩
  | some cursor_position =>
    match viewport_to_world camera cursor_position with
    | none => ⟨camera, camera_settings, none⟩
    | some ray =>
      match ray.intersect_plane ground_translation ground_up with
      | none => ⟨camera, camera_settings, none⟩
      | some distance =>
        let point := ray.get_point distance
        if left_pressed then
          match viewport_to_world camera (cursor_position + mouse_delta) with
          | none => ⟨camera, camera_settings, none⟩
          | some ray2 =>
            match ray2.intersect_plane ground_translation ground_up with
            | none => ⟨camera, camera_settings, none⟩
            | some distance2 =>
              let camera_motion := ray2.get_point distance2 - point
              let focus2 := camera_settings.should_focus_at - camera_motion
              let settings2 := { camera_settings with should_focus_at := focus2 }
              let camera2 :=
                { camera with
                  translation :=
                    focus2 - camera_settings.orbit_distance • camera.rotation.forward }
              ⟨camera2, settings2, none⟩
        else
          ⟨camera, camera_settings, some (point + (0.01 : ℝ) • ground_up)⟩

/-- Modelled from the spec: a simple top-down orthographic
viewport-to-world map used to instantiate witnesses concretely (the spec
only requires viewport-to-world to produce a ray from the camera through
the pixel): pixel (x, y) yields the ray starting at world point
(x, camera height, y) and pointing straight down. -/
noncomputable def v2w_topdown : Transform → Vec2 → Option Ray3d :=
  fun cam p => some ⟨⟨p.x, cam.translation.y, p.y⟩, ⟨0, -1, 0⟩⟩

/-- Signed distance along a ray to the plane through `q` with normal `n`
(the value `intersect_plane` returns when it succeeds). -/
noncomputable def planeDist (r : Ray3d) (q n : Vec3) : ℝ :=
  (q - r.origin).dot n / n.dot r.direction

/-- The ray of the affine (orthographic-style) camera model at a pixel:
origin rigidly attached to the camera translation and affine in the
pixel, direction constant. -/
noncomputable def affineRay (base dx dy dir : Vec3) (cam : Transform)
    (p : Vec2) : Ray3d :=
  ⟨cam.translation + (base + p.x • dx + p.y • dy), dir⟩

/-- Modelled from the spec: an orthographic-style viewport-to-world map
(engine code not in this repository; the spec requires only a ray from
the camera determined by the pixel and the projection).  All rays are
parallel and the ray origin is affine in the pixel coordinates, as for
an orthographic projection. -/
noncomputable def v2w_affine (base dx dy dir : Vec3) :
    Transform → Vec2 → Option Ray3d :=
  fun cam p => some (affineRay base dx dy dir cam p)

/-- Focus displacement produced by one successful pan with motion `M`
under the affine camera model (independent of the camera position and of
the cursor position). -/
noncomputable def affineShift (dx dy dir n : Vec3) (M : Vec2) : Vec3 :=
  (M.x • dx + M.y • dy) -
    (((M.x • dx + M.y • dy).dot n) / n.dot dir) • dir

/-- Modelled from the spec: a perspective (pinhole) viewport-to-world map
(engine code not in this repository; the spec requires only a ray from
the camera determined by the pixel and the projection).  The ray starts
at the camera position and its direction is affine in the pixel, as for
a pinhole camera; this concrete family corresponds to a camera pitched
45 degrees downward (pixel (0, 0) maps to direction (0, -1, -1)). -/
noncomputable def v2w_pinhole : Transform → Vec2 → Option Ray3d :=
  fun cam p => some ⟨cam.translation, ⟨p.x, p.y - 1, -1⟩⟩

/-- Settings for the pan round-trip counterexample: default settings with
focus (0, 0, -1) and orbit distance sqrt 2, consistent with the camera
below. -/
noncomputable def panCexSettings : CameraSettings :=
  { CameraSettings.default with
    orbit_distance := Real.sqrt 2
    should_focus_at := ⟨0, 0, -1⟩ }

/-- Camera for the pan round-trip counterexample: at (0, 1, 0), pitched
45 degrees downward (forward (0, -sqrt2/2, -sqrt2/2)), which satisfies
position = focus - forward * orbit_distance for the settings above. -/
noncomputable def panCexCam : Transform :=
  ⟨⟨0, 1, 0⟩, ⟨0, -(Real.pi / 4), 0⟩⟩

/-- First pan frame of the counterexample: cursor (0, 0), motion
(0, 1/2), left button held, ground plane through the origin with normal
+Y. -/
noncomputable def panFrame1 : DrawCursorResult :=
  draw_cursor v2w_pinhole ⟨0, 0, 0⟩ ⟨0, 1, 0⟩ true ⟨0, 1 / 2⟩ (some ⟨0, 0⟩)
    panCexCam panCexSettings

/-- Second pan frame of the counterexample: same cursor (0, 0), opposite
motion (0, -1/2), starting from the state frame one produced. -/
noncomputable def panFrame2 : DrawCursorResult :=
  draw_cursor v2w_pinhole ⟨0, 0, 0⟩ ⟨0, 1, 0⟩ true ⟨0, -(1 / 2)⟩
    (some ⟨0, 0⟩) panFrame1.camera panFrame1.settings

theorem Vec2.add_expand (a b : Vec2) : a + b = ⟨a.x + b.x, a.y + b.y⟩ := rfl

theorem Vec2.neg_expand (a : Vec2) : -a = ⟨-a.x, -a.y⟩ := rfl

theorem Vec3.add_def (a b : Vec3) : a + b = ⟨a.x + b.x, a.y + b.y, a.z + b.z⟩ := rfl

theorem Vec3.sub_def (a b : Vec3) : a - b = ⟨a.x - b.x, a.y - b.y, a.z - b.z⟩ := rfl

theorem Vec3.smul_def (t : ℝ) (a : Vec3) : t • a = ⟨t * a.x, t * a.y, t * a.z⟩ := rfl

theorem Vec3.neg_def (a : Vec3) : -a = ⟨-a.x, -a.y, -a.z⟩ := rfl

theorem Vec3.sub_sub_neg (v w : Vec3) : v - w - -w = v := by
  cases v with
  | mk a b c =>
    cases w with
    | mk d e f =>
      simp only [Vec3.neg_def, Vec3.sub_def, Vec3.mk.injEq]
      refine ⟨by ring, by ring, by ring⟩

/-! Helper lemmas about the clamp and the forward vector. -/

theorem fclamp_mem_Icc (x lo hi : ℝ) (h : lo ≤ hi) :
    fclamp x lo hi ∈ Set.Icc lo hi := by
  unfold fclamp
  split_ifs with h1 h2 <;> rw [Set.mem_Icc] <;> exact ⟨by linarith, by linarith⟩

theorem fclamp_lt_of_lt (x lo hi c : ℝ) (hx : x < c) (hlo : lo < c) :
    fclamp x lo hi < c := by
  unfold fclamp
  split_ifs with h1 h2 <;> linarith

theorem fclamp_eq_lo (x lo hi : ℝ) (hx : x ≤ lo) (h : lo ≤ hi) :
    fclamp x lo hi = lo := by
  unfold fclamp
  split_ifs with h1 h2 <;> linarith

theorem Rotation.forward_length (r : Rotation) : r.forward.length = 1 := by
  have h : (-(Real.cos r.pitch * Real.sin r.yaw)) ^ 2 + (Real.sin r.pitch) ^ 2 +
      (-(Real.cos r.pitch * Real.cos r.yaw)) ^ 2 = 1 := by
    nlinarith [Real.sin_sq_add_cos_sq r.yaw, Real.sin_sq_add_cos_sq r.pitch]
  have hx : r.forward.x = -(Real.cos r.pitch * Real.sin r.yaw) := rfl
  have hy : r.forward.y = Real.sin r.pitch := rfl
  have hz : r.forward.z = -(Real.cos r.pitch * Real.cos r.yaw) := rfl
  unfold Vec3.length
  rw [hx, hy, hz, h, Real.sqrt_one]

theorem length_sub_self_smul (f v : Vec3) (d : ℝ) (hv : v.length = 1)
    (hd : 0 ≤ d) : ((f - d • v) - f).length = d := by
  have hs : v.x ^ 2 + v.y ^ 2 + v.z ^ 2 = 1 := by
    have h0 : 0 ≤ v.x ^ 2 + v.y ^ 2 + v.z ^ 2 := by positivity
    have := Real.sq_sqrt h0
    unfold Vec3.length at hv
    rw [hv] at this
    linarith
  have hcoord : ((f - d • v) - f) = ⟨-(d * v.x), -(d * v.y), -(d * v.z)⟩ := by
    simp only [Vec3.sub_def, Vec3.smul_def, Vec3.mk.injEq]
    refine ⟨by ring, by ring, by ring⟩
  rw [hcoord]
  unfold Vec3.length
  have : (-(d * v.x)) ^ 2 + (-(d * v.y)) ^ 2 + (-(d * v.z)) ^ 2 = d ^ 2 := by
    nlinarith [hs]
  rw [this, Real.sqrt_sq hd]

/-! Unfolding lemmas for `zoom` and the pan branch of `draw_cursor`. -/

theorem zoom_orthographic {α : Type} (s : CameraSettings) (d : Vec2)
    (o : OrthographicProjection) :
    zoom (α := α) s d (Projection.Orthographic o) =
      Projection.Orthographic
        { o with
          scale := fclamp (o.scale * (1 + -d.y * s.orthographic_zoom_speed))
            s.orthographic_zoom_range.start s.orthographic_zoom_range.stop } :=
  rfl

theorem zoom_perspective {α : Type} (s : CameraSettings) (d : Vec2)
    (p : PerspectiveProjection) :
    zoom (α := α) s d (Projection.Perspective p) =
      Projection.Perspective
        { p with
          fov := fclamp (p.fov + -d.y * s.perspective_zoom_speed)
            s.perspective_zoom_range.start s.perspective_zoom_range.stop } :=
  rfl

theorem draw_cursor_pan_eq (v2w : Transform → Vec2 → Option Ray3d)
    (q n : Vec3) (delta c : Vec2) (cam : Transform) (s : CameraSettings)
    (r1 : Ray3d) (t1 : ℝ) (r2 : Ray3d) (t2 : ℝ)
    (h1 : v2w cam c = some r1)
    (h2 : r1.intersect_plane q n = some t1)
    (h3 : v2w cam (c + delta) = some r2)
    (h4 : r2.intersect_plane q n = some t2) :
    draw_cursor v2w q n true delta (some c) cam s =
      ⟨⟨(s.should_focus_at - (r2.get_point t2 - r1.get_point t1)) -
          s.orbit_distance • cam.rotation.forward,
        cam.rotation⟩,
       { s with
         should_focus_at := s.should_focus_at - (r2.get_point t2 - r1.get_point t1) },
       none⟩ := by
  simp only [draw_cursor, h1, h2, h3, h4, if_true]

/-! Statements and proofs of the claims. -/

/-- Claim C8: invoking the pan/cursor controller when no cursor position
is present leaves the camera transform and the focus point (indeed the
whole settings record) unchanged and produces no visual marker: the
invocation is a silent early return. -/
theorem draw_cursor_noop_without_cursor
    (v2w : Transform → Vec2 → Option Ray3d) (q n : Vec3)
    (left_pressed : Bool) (delta : Vec2)
    (cam : Transform) (s : CameraSettings) :
    draw_cursor v2w q n left_pressed delta none cam s = ⟨cam, s, none⟩ :=
  rfl

/-- Claim C9: the zoom controller run on the Orthographic variant yields
an Orthographic projection in which every field other than `scale` is
unchanged (no perspective-specific field can be touched, the variant is
preserved), and run on the Perspective variant yields a Perspective
projection in which every field other than `fov` is unchanged. -/
theorem zoom_variant_isolation {α : Type} (s : CameraSettings) (d : Vec2)
    (o : OrthographicProjection) (p : PerspectiveProjection) :
    (∃ o' : OrthographicProjection,
        zoom (α := α) s d (Projection.Orthographic o) = Projection.Orthographic o' ∧
        o'.near = o.near ∧ o'.far = o.far ∧ o'.viewport_origin = o.viewport_origin) ∧
    (∃ p' : PerspectiveProjection,
        zoom (α := α) s d (Projection.Perspective p) = Projection.Perspective p' ∧
        p'.aspect = p.aspect ∧ p'.near = p.near ∧ p'.far = p.far) :=
  ⟨⟨_, rfl, rfl, rfl, rfl⟩, ⟨_, rfl, rfl, rfl, rfl⟩⟩

/-- Claim C10: invoking the zoom controller while the active projection is
neither Orthographic nor Perspective (the wildcard match arm, i.e. a
custom projection) is a complete no-op for every scroll delta: the
projection is returned unchanged (the projection component is the only
state the zoom system can write). -/
theorem zoom_custom_noop {α : Type} (s : CameraSettings) (d : Vec2) (c : α) :
    zoom s d (Projection.Custom c) = Projection.Custom c :=
  rfl

/-! Arithmetic facts about the pitch limit, and an unfolding lemma for
`orbit` with the orbit button held. -/

theorem pitch_limit_pos : 0 < PITCH_LIMIT := by
  unfold PITCH_LIMIT
  linarith [Real.pi_gt_three]

theorem pitch_limit_lt_ten : PITCH_LIMIT < 10 := by
  unfold PITCH_LIMIT
  linarith [Real.pi_lt_four]

theorem fclamp_eq_hi (x lo hi : ℝ) (hx : hi ≤ x) (h : lo ≤ hi) :
    fclamp x lo hi = hi := by
  unfold fclamp
  split_ifs with h1 h2 <;> linarith

theorem orbit_pressed_eq (s : CameraSettings) (delta : Vec2) (cam : Transform) :
    orbit s true delta cam =
      ⟨s.should_focus_at -
          s.orbit_distance •
            (Rotation.forward
              ⟨cam.rotation.yaw + delta.x * s.yaw_speed,
                fclamp (cam.rotation.pitch + delta.y * s.pitch_speed)
                  (-PITCH_LIMIT) PITCH_LIMIT,
                cam.rotation.roll⟩),
        ⟨cam.rotation.yaw + delta.x * s.yaw_speed,
          fclamp (cam.rotation.pitch + delta.y * s.pitch_speed)
            (-PITCH_LIMIT) PITCH_LIMIT,
          cam.rotation.roll⟩⟩ :=
  rfl

/-- Claim C2, counterexample: the claim asks for a pitch strictly inside
the open interval (-pi/2 + 0.01, pi/2 - 0.01), but the clamp in `orbit`
attains the endpoint: from pitch 0 (inside the allowed range), one orbit
invocation with mouse delta (0, 1000) under the default settings drives
the pitch to exactly pi/2 - 0.01, which is not in the open interval. -/
theorem pitch_clamp_strict_cex :
    (0 : ℝ) ∈ Set.Icc (-PITCH_LIMIT) PITCH_LIMIT ∧
    (orbit CameraSettings.default true ⟨0, 1000⟩
        ⟨⟨0, 0, 20⟩, ⟨0, 0, 0⟩⟩).rotation.pitch ∉
      Set.Ioo (-(Real.pi / 2) + 0.01) (Real.pi / 2 - 0.01) := by
  constructor
  · rw [Set.mem_Icc]
    constructor <;> linarith [pitch_limit_pos]
  · have hp : (orbit CameraSettings.default true ⟨0, 1000⟩
        ⟨⟨0, 0, 20⟩, ⟨0, 0, 0⟩⟩).rotation.pitch = PITCH_LIMIT := by
      rw [orbit_pressed_eq]
      show fclamp (0 + 1000 * CameraSettings.default.pitch_speed)
        (-PITCH_LIMIT) PITCH_LIMIT = PITCH_LIMIT
      have hv : (0 : ℝ) + 1000 * CameraSettings.default.pitch_speed = 10 := by
        norm_num [CameraSettings.default]
      rw [hv]
      exact fclamp_eq_hi 10 (-PITCH_LIMIT) PITCH_LIMIT
        (le_of_lt pitch_limit_lt_ten) (by linarith [pitch_limit_pos])
    rw [hp]
    intro hmem
    rw [Set.mem_Ioo] at hmem
    have := hmem.2
    unfold PITCH_LIMIT at this
    linarith

/-- Claim C2 as amended: for every sequence of orbit invocations with the
orbit button held and arbitrary mouse deltas, starting from a pitch in
the allowed range, the pitch always lies in the closed interval
[-(pi/2 - 0.01), pi/2 - 0.01] (the clamp can attain the endpoints, so the
closed interval replaces the claimed open one). -/
theorem pitch_clamp_invariant (s : CameraSettings) (deltas : List Vec2)
    (cam : Transform)
    (h : cam.rotation.pitch ∈ Set.Icc (-PITCH_LIMIT) PITCH_LIMIT) :
    (deltas.foldl (fun c d => orbit s true d c) cam).rotation.pitch ∈
      Set.Icc (-PITCH_LIMIT) PITCH_LIMIT := by
  induction deltas generalizing cam with
  | nil => exact h
  | cons d rest ih =>
      rw [List.foldl_cons]
      apply ih
      rw [orbit_pressed_eq]
      exact fclamp_mem_Icc _ _ _ (by linarith [pitch_limit_pos])

/-- Witness for the amended claim C2 at a concrete input. -/
theorem pitch_clamp_invariant_witness :
    (⟨⟨0, 0, 20⟩, ⟨0, 0, 0⟩⟩ : Transform).rotation.pitch ∈
      Set.Icc (-PITCH_LIMIT) PITCH_LIMIT ∧
    (List.foldl (fun c d => orbit CameraSettings.default true d c)
        ⟨⟨0, 0, 20⟩, ⟨0, 0, 0⟩⟩ [⟨5, 7⟩, ⟨-3, 100⟩]).rotation.pitch ∈
      Set.Icc (-PITCH_LIMIT) PITCH_LIMIT := by
  have h0 : (⟨⟨0, 0, 20⟩, ⟨0, 0, 0⟩⟩ : Transform).rotation.pitch ∈
      Set.Icc (-PITCH_LIMIT) PITCH_LIMIT := by
    rw [Set.mem_Icc]
    constructor
    · show -PITCH_LIMIT ≤ (0 : ℝ)
      linarith [pitch_limit_pos]
    · show (0 : ℝ) ≤ PITCH_LIMIT
      linarith [pitch_limit_pos]
  exact ⟨h0, pitch_clamp_invariant CameraSettings.default [⟨5, 7⟩, ⟨-3, 100⟩] _ h0⟩

/-- Claim C6: with the default settings (orbit_distance 20, focus the
origin, pitch and yaw speed 0.01) and the camera initially facing -Z,
one orbit invocation with the orbit button held and mouse delta
(100, 0) increases the yaw by exactly 1 radian, leaves the pitch at 0,
and places the camera along the new forward direction at distance 20
from the origin. -/
theorem orbit_example_scenario :
    (orbit CameraSettings.default true ⟨100, 0⟩
        ⟨⟨0, 0, 20⟩, ⟨0, 0, 0⟩⟩).rotation.yaw = 0 + 1 ∧
    (orbit CameraSettings.default true ⟨100, 0⟩
        ⟨⟨0, 0, 20⟩, ⟨0, 0, 0⟩⟩).rotation.pitch = 0 ∧
    (orbit CameraSettings.default true ⟨100, 0⟩
        ⟨⟨0, 0, 20⟩, ⟨0, 0, 0⟩⟩).translation =
      (⟨0, 0, 0⟩ : Vec3) -
        (20 : ℝ) • (orbit CameraSettings.default true ⟨100, 0⟩
            ⟨⟨0, 0, 20⟩, ⟨0, 0, 0⟩⟩).rotation.forward ∧
    ((orbit CameraSettings.default true ⟨100, 0⟩
        ⟨⟨0, 0, 20⟩, ⟨0, 0, 0⟩⟩).translation - ⟨0, 0, 0⟩).length = 20 := by
  have hpitch : fclamp ((0 : ℝ) + 0 * CameraSettings.default.pitch_speed)
      (-PITCH_LIMIT) PITCH_LIMIT = 0 := by
    have hv : (0 : ℝ) + 0 * CameraSettings.default.pitch_speed = 0 := by ring
    rw [hv]
    unfold fclamp
    rw [if_neg, if_neg]
    · rw [not_lt]
      linarith [pitch_limit_pos]
    · rw [not_lt]
      linarith [pitch_limit_pos]
  refine ⟨?_, ?_, ?_, ?_⟩
  · rw [orbit_pressed_eq]
    show (0 : ℝ) + 100 * CameraSettings.default.yaw_speed = 0 + 1
    norm_num [CameraSettings.default]
  · rw [orbit_pressed_eq]
    exact hpitch
  · rw [orbit_pressed_eq]
    rfl
  · rw [orbit_pressed_eq]
    show ((CameraSettings.default.should_focus_at -
        CameraSettings.default.orbit_distance • _) -
        (⟨0, 0, 0⟩ : Vec3)).length = 20
    exact length_sub_self_smul ⟨0, 0, 0⟩ _ 20
      (Rotation.forward_length _) (by norm_num)

/-- Claim C1: after any orbit update (orbit button held), and after any
successful pan update (left button held, both ray-plane intersections
succeed), the camera's position equals the focus point minus the forward
direction times the orbit distance, and hence (for a nonnegative orbit
distance, as configured) the distance between camera position and focus
point equals the orbit distance. -/
theorem orbit_pan_distance_invariant :
    (∀ (s : CameraSettings) (delta : Vec2) (cam : Transform),
        0 ≤ s.orbit_distance →
        (orbit s true delta cam).translation =
          s.should_focus_at -
            s.orbit_distance • (orbit s true delta cam).rotation.forward ∧
        ((orbit s true delta cam).translation - s.should_focus_at).length =
          s.orbit_distance) ∧
    (∀ (v2w : Transform → Vec2 → Option Ray3d) (q n : Vec3) (delta c : Vec2)
        (cam : Transform) (s : CameraSettings) (r1 : Ray3d) (t1 : ℝ)
        (r2 : Ray3d) (t2 : ℝ),
        0 ≤ s.orbit_distance →
        v2w cam c = some r1 →
        r1.intersect_plane q n = some t1 →
        v2w cam (c + delta) = some r2 →
        r2.intersect_plane q n = some t2 →
        (draw_cursor v2w q n true delta (some c) cam s).camera.translation =
          (draw_cursor v2w q n true delta (some c) cam s).settings.should_focus_at -
            s.orbit_distance •
              (draw_cursor v2w q n true delta (some c) cam s).camera.rotation.forward ∧
        ((draw_cursor v2w q n true delta (some c) cam s).camera.translation -
            (draw_cursor v2w q n true delta (some c) cam s).settings.should_focus_at).length =
          s.orbit_distance) := by
  constructor
  · intro s delta cam hd
    rw [orbit_pressed_eq]
    exact ⟨rfl, length_sub_self_smul _ _ _ (Rotation.forward_length _) hd⟩
  · intro v2w q n delta c cam s r1 t1 r2 t2 hd h1 h2 h3 h4
    rw [draw_cursor_pan_eq v2w q n delta c cam s r1 t1 r2 t2 h1 h2 h3 h4]
    exact ⟨rfl, length_sub_self_smul _ _ _ (Rotation.forward_length _) hd⟩

/-- Witness for claim C1 at concrete inputs (orbit part with the C6
scenario, pan part with the top-down camera model over the ground plane
through the origin with normal +Y). -/
theorem orbit_pan_distance_invariant_witness :
    ((0 : ℝ) ≤ CameraSettings.default.orbit_distance ∧
      ((orbit CameraSettings.default true ⟨100, 0⟩
          ⟨⟨0, 0, 20⟩, ⟨0, 0, 0⟩⟩).translation -
        CameraSettings.default.should_focus_at).length =
          CameraSettings.default.orbit_distance) ∧
    (v2w_topdown ⟨⟨0, 5, 0⟩, ⟨0, 0, 0⟩⟩ ⟨1, 2⟩ =
        some ⟨⟨1, 5, 2⟩, ⟨0, -1, 0⟩⟩ ∧
      Ray3d.intersect_plane ⟨⟨1, 5, 2⟩, ⟨0, -1, 0⟩⟩ ⟨0, 0, 0⟩ ⟨0, 1, 0⟩ =
        some 5 ∧
      v2w_topdown ⟨⟨0, 5, 0⟩, ⟨0, 0, 0⟩⟩ ((⟨1, 2⟩ : Vec2) + ⟨3, 4⟩) =
        some ⟨⟨4, 5, 6⟩, ⟨0, -1, 0⟩⟩ ∧
      Ray3d.intersect_plane ⟨⟨4, 5, 6⟩, ⟨0, -1, 0⟩⟩ ⟨0, 0, 0⟩ ⟨0, 1, 0⟩ =
        some 5 ∧
      ((draw_cursor v2w_topdown ⟨0, 0, 0⟩ ⟨0, 1, 0⟩ true ⟨3, 4⟩ (some ⟨1, 2⟩)
            ⟨⟨0, 5, 0⟩, ⟨0, 0, 0⟩⟩ CameraSettings.default).camera.translation -
          (draw_cursor v2w_topdown ⟨0, 0, 0⟩ ⟨0, 1, 0⟩ true ⟨3, 4⟩ (some ⟨1, 2⟩)
            ⟨⟨0, 5, 0⟩, ⟨0, 0, 0⟩⟩ CameraSettings.default).settings.should_focus_at).length =
        CameraSettings.default.orbit_distance) := by
  have hd : (0 : ℝ) ≤ CameraSettings.default.orbit_distance := by
    norm_num [CameraSettings.default]
  have h1 : v2w_topdown ⟨⟨0, 5, 0⟩, ⟨0, 0, 0⟩⟩ ⟨1, 2⟩ =
      some ⟨⟨1, 5, 2⟩, ⟨0, -1, 0⟩⟩ := rfl
  have h2 : Ray3d.intersect_plane ⟨⟨1, 5, 2⟩, ⟨0, -1, 0⟩⟩ ⟨0, 0, 0⟩ ⟨0, 1, 0⟩ =
      some 5 := by
    unfold Ray3d.intersect_plane
    norm_num [Vec3.dot, Vec3.sub_def]
  have h3 : v2w_topdown ⟨⟨0, 5, 0⟩, ⟨0, 0, 0⟩⟩ ((⟨1, 2⟩ : Vec2) + ⟨3, 4⟩) =
      some ⟨⟨4, 5, 6⟩, ⟨0, -1, 0⟩⟩ := by
    norm_num [v2w_topdown, Vec2.add_expand]
  have h4 : Ray3d.intersect_plane ⟨⟨4, 5, 6⟩, ⟨0, -1, 0⟩⟩ ⟨0, 0, 0⟩ ⟨0, 1, 0⟩ =
      some 5 := by
    unfold Ray3d.intersect_plane
    norm_num [Vec3.dot, Vec3.sub_def]
  exact ⟨⟨hd, (orbit_pan_distance_invariant.1 CameraSettings.default ⟨100, 0⟩
      ⟨⟨0, 0, 20⟩, ⟨0, 0, 0⟩⟩ hd).2⟩,
    h1, h2, h3, h4,
    (orbit_pan_distance_invariant.2 v2w_topdown ⟨0, 0, 0⟩ ⟨0, 1, 0⟩ ⟨3, 4⟩
      ⟨1, 2⟩ ⟨⟨0, 5, 0⟩, ⟨0, 0, 0⟩⟩ CameraSettings.default _ _ _ _
      hd h1 h2 h3 h4).2⟩

/-! Fold form of repeated zoom invocations, for the clamp invariant. -/

theorem zoom_ortho_foldl (α : Type) (s : CameraSettings)
    (h : s.orthographic_zoom_range.start ≤ s.orthographic_zoom_range.stop) :
    ∀ (deltas : List Vec2) (o : OrthographicProjection),
      o.scale ∈ Set.Icc s.orthographic_zoom_range.start
          s.orthographic_zoom_range.stop →
      ∃ o', List.foldl (fun pr d => zoom (α := α) s d pr)
          (Projection.Orthographic o) deltas = Projection.Orthographic o' ∧
        o'.scale ∈ Set.Icc s.orthographic_zoom_range.start
          s.orthographic_zoom_range.stop
  | [], o, ho => ⟨o, rfl, ho⟩
  | d :: rest, o, _ => by
      rw [List.foldl_cons]
      rw [zoom_orthographic]
      exact zoom_ortho_foldl α s h rest _ (fclamp_mem_Icc _ _ _ h)

theorem zoom_persp_foldl (α : Type) (s : CameraSettings)
    (h : s.perspective_zoom_range.start ≤ s.perspective_zoom_range.stop) :
    ∀ (deltas : List Vec2) (p : PerspectiveProjection),
      p.fov ∈ Set.Icc s.perspective_zoom_range.start
          s.perspective_zoom_range.stop →
      ∃ p', List.foldl (fun pr d => zoom (α := α) s d pr)
          (Projection.Perspective p) deltas = Projection.Perspective p' ∧
        p'.fov ∈ Set.Icc s.perspective_zoom_range.start
          s.perspective_zoom_range.stop
  | [], p, hp => ⟨p, rfl, hp⟩
  | d :: rest, p, _ => by
      rw [List.foldl_cons]
      rw [zoom_perspective]
      exact zoom_persp_foldl α s h rest _ (fclamp_mem_Icc _ _ _ h)

/-- Claim C3: for every sequence of zoom invocations (written as a first
scroll delta followed by the remaining ones) with arbitrary scroll
deltas, after each invocation the orthographic scale lies within the
inclusive orthographic zoom range when the Orthographic variant is
active, and the perspective field of view lies within the inclusive
perspective zoom range when the Perspective variant is active (each
prefix of a delta sequence is itself such a sequence, so this covers
every intermediate state after the first invocation; the ranges are
assumed well ordered, as the defaults are). -/
theorem zoom_clamp_invariant {α : Type} (s : CameraSettings)
    (o : OrthographicProjection) (p : PerspectiveProjection)
    (first : Vec2) (rest : List Vec2)
    (hO : s.orthographic_zoom_range.start ≤ s.orthographic_zoom_range.stop)
    (hP : s.perspective_zoom_range.start ≤ s.perspective_zoom_range.stop) :
    (∃ o', List.foldl (fun pr d => zoom (α := α) s d pr)
        (zoom (α := α) s first (Projection.Orthographic o)) rest =
          Projection.Orthographic o' ∧
      o'.scale ∈ Set.Icc s.orthographic_zoom_range.start
        s.orthographic_zoom_range.stop) ∧
    (∃ p', List.foldl (fun pr d => zoom (α := α) s d pr)
        (zoom (α := α) s first (Projection.Perspective p)) rest =
          Projection.Perspective p' ∧
      p'.fov ∈ Set.Icc s.perspective_zoom_range.start
        s.perspective_zoom_range.stop) := by
  constructor
  · rw [zoom_orthographic]
    exact zoom_ortho_foldl α s hO rest _ (fclamp_mem_Icc _ _ _ hO)
  · rw [zoom_perspective]
    exact zoom_persp_foldl α s hP rest _ (fclamp_mem_Icc _ _ _ hP)

/-- Witness for claim C3 at concrete inputs, under the default settings. -/
theorem zoom_clamp_invariant_witness :
    (CameraSettings.default.orthographic_zoom_range.start ≤
        CameraSettings.default.orthographic_zoom_range.stop) ∧
    (CameraSettings.default.perspective_zoom_range.start ≤
        CameraSettings.default.perspective_zoom_range.stop) ∧
    ((∃ o', List.foldl (fun pr d => zoom (α := Unit) CameraSettings.default d pr)
        (zoom (α := Unit) CameraSettings.default ⟨0, 2⟩
          (Projection.Orthographic ⟨1, 0, 1000, ⟨0.5, 0.5⟩⟩)) [⟨0, -3⟩] =
          Projection.Orthographic o' ∧
      o'.scale ∈ Set.Icc CameraSettings.default.orthographic_zoom_range.start
        CameraSettings.default.orthographic_zoom_range.stop) ∧
    (∃ p', List.foldl (fun pr d => zoom (α := Unit) CameraSettings.default d pr)
        (zoom (α := Unit) CameraSettings.default ⟨0, 2⟩
          (Projection.Perspective ⟨1, 1.5, 0.1, 1000⟩)) [⟨0, -3⟩] =
          Projection.Perspective p' ∧
      p'.fov ∈ Set.Icc CameraSettings.default.perspective_zoom_range.start
        CameraSettings.default.perspective_zoom_range.stop)) := by
  have hO : CameraSettings.default.orthographic_zoom_range.start ≤
      CameraSettings.default.orthographic_zoom_range.stop := by
    show (0.1 : ℝ) ≤ 10
    norm_num
  have hP : CameraSettings.default.perspective_zoom_range.start ≤
      CameraSettings.default.perspective_zoom_range.stop := by
    show Real.pi / 20 ≤ Real.pi - 0.2
    linarith [Real.pi_gt_three]
  exact ⟨hO, hP, zoom_clamp_invariant CameraSettings.default
    ⟨1, 0, 1000, ⟨0.5, 0.5⟩⟩ ⟨1, 1.5, 0.1, 1000⟩ ⟨0, 2⟩ [⟨0, -3⟩] hO hP⟩

/-- Claim C5, counterexample: a positive vertical scroll delta does not
always strictly decrease the zoomed quantity.  Under the default
settings, with the orthographic scale already at the range minimum 0.1
(resp. the perspective field of view at the range minimum pi/20), one
zoom invocation with scroll delta (0, 1) leaves the projection exactly
unchanged, because the clamp re-saturates at the minimum. -/
theorem zoom_positive_scroll_cex :
    (0 : ℝ) < (⟨0, 1⟩ : Vec2).y ∧
    zoom (α := Unit) CameraSettings.default ⟨0, 1⟩
        (Projection.Orthographic ⟨0.1, 0, 1000, ⟨0.5, 0.5⟩⟩) =
      Projection.Orthographic ⟨0.1, 0, 1000, ⟨0.5, 0.5⟩⟩ ∧
    zoom (α := Unit) CameraSettings.default ⟨0, 1⟩
        (Projection.Perspective ⟨Real.pi / 20, 1.5, 0.1, 1000⟩) =
      Projection.Perspective ⟨Real.pi / 20, 1.5, 0.1, 1000⟩ := by
  refine ⟨by norm_num, ?_, ?_⟩
  · rw [zoom_orthographic]
    congr 1
    simp only [OrthographicProjection.mk.injEq, and_true, and_self]
    exact fclamp_eq_lo _ _ _
      (by show (0.1 : ℝ) * (1 + -(1 : ℝ) * 0.2) ≤ 0.1; norm_num)
      (by show (0.1 : ℝ) ≤ 10; norm_num)
  · rw [zoom_perspective]
    congr 1
    simp only [PerspectiveProjection.mk.injEq, and_true, and_self]
    exact fclamp_eq_lo _ _ _
      (by show Real.pi / 20 + -(1 : ℝ) * 0.05 ≤ Real.pi / 20; linarith)
      (by show Real.pi / 20 ≤ Real.pi - 0.2; linarith [Real.pi_gt_three])

/-- Claim C5 as amended: a positive vertical scroll delta strictly
decreases the orthographic scale (resp. the perspective field of view)
provided the current value lies strictly above the range minimum (with
positive zoom speed, and for the orthographic case a positive range
minimum, as in the defaults); when the value already sits at the range
minimum the clamp leaves it unchanged (see the counterexample). -/
theorem zoom_in_strict_decrease {α : Type} (s : CameraSettings) (d : Vec2)
    (o : OrthographicProjection) (p : PerspectiveProjection)
    (hy : 0 < d.y) :
    (0 < s.orthographic_zoom_speed →
      0 < s.orthographic_zoom_range.start →
      s.orthographic_zoom_range.start < o.scale →
      ∃ o', zoom (α := α) s d (Projection.Orthographic o) =
          Projection.Orthographic o' ∧
        o'.scale < o.scale) ∧
    (0 < s.perspective_zoom_speed →
      s.perspective_zoom_range.start < p.fov →
      ∃ p', zoom (α := α) s d (Projection.Perspective p) =
          Projection.Perspective p' ∧
        p'.fov < p.fov) := by
  constructor
  · intro hsp h0 hlt
    refine ⟨_, rfl, ?_⟩
    show fclamp (o.scale * (1 + -d.y * s.orthographic_zoom_speed))
      s.orthographic_zoom_range.start s.orthographic_zoom_range.stop < o.scale
    apply fclamp_lt_of_lt
    · nlinarith [mul_pos (h0.trans hlt) (mul_pos hy hsp)]
    · exact hlt
  · intro hsp hlt
    refine ⟨_, rfl, ?_⟩
    show fclamp (p.fov + -d.y * s.perspective_zoom_speed)
      s.perspective_zoom_range.start s.perspective_zoom_range.stop < p.fov
    apply fclamp_lt_of_lt
    · nlinarith [mul_pos hy hsp]
    · exact hlt

/-- Witness for the amended claim C5 at concrete inputs, under the
default settings. -/
theorem zoom_in_strict_decrease_witness :
    ((0 : ℝ) < (⟨0, 1⟩ : Vec2).y ∧
      0 < CameraSettings.default.orthographic_zoom_speed ∧
      0 < CameraSettings.default.orthographic_zoom_range.start ∧
      CameraSettings.default.orthographic_zoom_range.start <
        (⟨1, 0, 1000, ⟨0.5, 0.5⟩⟩ : OrthographicProjection).scale ∧
      0 < CameraSettings.default.perspective_zoom_speed ∧
      CameraSettings.default.perspective_zoom_range.start <
        (⟨1, 1.5, 0.1, 1000⟩ : PerspectiveProjection).fov) ∧
    (∃ o', zoom (α := Unit) CameraSettings.default ⟨0, 1⟩
        (Projection.Orthographic ⟨1, 0, 1000, ⟨0.5, 0.5⟩⟩) =
          Projection.Orthographic o' ∧
      o'.scale < (⟨1, 0, 1000, ⟨0.5, 0.5⟩⟩ : OrthographicProjection).scale) ∧
    (∃ p', zoom (α := Unit) CameraSettings.default ⟨0, 1⟩
        (Projection.Perspective ⟨1, 1.5, 0.1, 1000⟩) =
          Projection.Perspective p' ∧
      p'.fov < (⟨1, 1.5, 0.1, 1000⟩ : PerspectiveProjection).fov) := by
  have hy : (0 : ℝ) < (⟨0, 1⟩ : Vec2).y := by norm_num
  have hsp : (0 : ℝ) < CameraSettings.default.orthographic_zoom_speed := by
    show (0 : ℝ) < 0.2
    norm_num
  have h0 : (0 : ℝ) < CameraSettings.default.orthographic_zoom_range.start := by
    show (0 : ℝ) < 0.1
    norm_num
  have hlt : CameraSettings.default.orthographic_zoom_range.start <
      (⟨1, 0, 1000, ⟨0.5, 0.5⟩⟩ : OrthographicProjection).scale := by
    show (0.1 : ℝ) < 1
    norm_num
  have hsp2 : (0 : ℝ) < CameraSettings.default.perspective_zoom_speed := by
    show (0 : ℝ) < 0.05
    norm_num
  have hlt2 : CameraSettings.default.perspective_zoom_range.start <
      (⟨1, 1.5, 0.1, 1000⟩ : PerspectiveProjection).fov := by
    show Real.pi / 20 < 1
    linarith [Real.pi_lt_four]
  exact ⟨⟨hy, hsp, h0, hlt, hsp2, hlt2⟩,
    (zoom_in_strict_decrease CameraSettings.default ⟨0, 1⟩
      ⟨1, 0, 1000, ⟨0.5, 0.5⟩⟩ ⟨1, 1.5, 0.1, 1000⟩ hy).1 hsp h0 hlt,
    (zoom_in_strict_decrease CameraSettings.default ⟨0, 1⟩
      ⟨1, 0, 1000, ⟨0.5, 0.5⟩⟩ ⟨1, 1.5, 0.1, 1000⟩ hy).2 hsp2 hlt2⟩

/-- Claim C4: when the left button is held, the cursor position is
present, and both ray casts (through the cursor position and through
cursor position + motion delta) intersect the ground plane, the
pan/cursor controller computes pan_vector = point1 - point0 (the two
intersection points), subtracts it from the focus point, recomputes the
camera position as the new focus point minus forward times the orbit
distance, and leaves the camera's orientation unchanged (and draws no
marker). -/
theorem pan_update_spec (v2w : Transform → Vec2 → Option Ray3d)
    (q n : Vec3) (delta c : Vec2) (cam : Transform) (s : CameraSettings)
    (r1 : Ray3d) (t1 : ℝ) (r2 : Ray3d) (t2 : ℝ)
    (h1 : v2w cam c = some r1)
    (h2 : r1.intersect_plane q n = some t1)
    (h3 : v2w cam (c + delta) = some r2)
    (h4 : r2.intersect_plane q n = some t2) :
    (draw_cursor v2w q n true delta (some c) cam s).settings.should_focus_at =
      s.should_focus_at - (r2.get_point t2 - r1.get_point t1) ∧
    (draw_cursor v2w q n true delta (some c) cam s).camera.translation =
      (s.should_focus_at - (r2.get_point t2 - r1.get_point t1)) -
        s.orbit_distance • cam.rotation.forward ∧
    (draw_cursor v2w q n true delta (some c) cam s).camera.rotation =
      cam.rotation ∧
    (draw_cursor v2w q n true delta (some c) cam s).gizmo = none := by
  rw [draw_cursor_pan_eq v2w q n delta c cam s r1 t1 r2 t2 h1 h2 h3 h4]
  exact ⟨rfl, rfl, rfl, rfl⟩

/-- Witness for claim C4 at concrete inputs, using the top-down camera
model: cursor (1, 2), motion delta (3, 4), camera at height 5 facing -Z,
ground plane through the origin with normal +Y; the intersection points
are (1, 0, 2) and (4, 0, 6), so the focus moves by -(3, 0, 4). -/
theorem pan_update_spec_witness :
    (v2w_topdown ⟨⟨0, 5, 0⟩, ⟨0, 0, 0⟩⟩ ⟨1, 2⟩ =
        some ⟨⟨1, 5, 2⟩, ⟨0, -1, 0⟩⟩ ∧
      Ray3d.intersect_plane ⟨⟨1, 5, 2⟩, ⟨0, -1, 0⟩⟩ ⟨0, 0, 0⟩ ⟨0, 1, 0⟩ =
        some 5 ∧
      v2w_topdown ⟨⟨0, 5, 0⟩, ⟨0, 0, 0⟩⟩ ((⟨1, 2⟩ : Vec2) + ⟨3, 4⟩) =
        some ⟨⟨4, 5, 6⟩, ⟨0, -1, 0⟩⟩ ∧
      Ray3d.intersect_plane ⟨⟨4, 5, 6⟩, ⟨0, -1, 0⟩⟩ ⟨0, 0, 0⟩ ⟨0, 1, 0⟩ =
        some 5) ∧
    ((draw_cursor v2w_topdown ⟨0, 0, 0⟩ ⟨0, 1, 0⟩ true ⟨3, 4⟩ (some ⟨1, 2⟩)
        ⟨⟨0, 5, 0⟩, ⟨0, 0, 0⟩⟩ CameraSettings.default).settings.should_focus_at =
      CameraSettings.default.should_focus_at -
        (Ray3d.get_point ⟨⟨4, 5, 6⟩, ⟨0, -1, 0⟩⟩ 5 -
          Ray3d.get_point ⟨⟨1, 5, 2⟩, ⟨0, -1, 0⟩⟩ 5) ∧
    (draw_cursor v2w_topdown ⟨0, 0, 0⟩ ⟨0, 1, 0⟩ true ⟨3, 4⟩ (some ⟨1, 2⟩)
        ⟨⟨0, 5, 0⟩, ⟨0, 0, 0⟩⟩ CameraSettings.default).camera.rotation =
      (⟨⟨0, 5, 0⟩, ⟨0, 0, 0⟩⟩ : Transform).rotation) := by
  have h1 : v2w_topdown ⟨⟨0, 5, 0⟩, ⟨0, 0, 0⟩⟩ ⟨1, 2⟩ =
      some ⟨⟨1, 5, 2⟩, ⟨0, -1, 0⟩⟩ := rfl
  have h2 : Ray3d.intersect_plane ⟨⟨1, 5, 2⟩, ⟨0, -1, 0⟩⟩ ⟨0, 0, 0⟩ ⟨0, 1, 0⟩ =
      some 5 := by
    unfold Ray3d.intersect_plane
    norm_num [Vec3.dot, Vec3.sub_def]
  have h3 : v2w_topdown ⟨⟨0, 5, 0⟩, ⟨0, 0, 0⟩⟩ ((⟨1, 2⟩ : Vec2) + ⟨3, 4⟩) =
      some ⟨⟨4, 5, 6⟩, ⟨0, -1, 0⟩⟩ := by
    norm_num [v2w_topdown, Vec2.add_expand]
  have h4 : Ray3d.intersect_plane ⟨⟨4, 5, 6⟩, ⟨0, -1, 0⟩⟩ ⟨0, 0, 0⟩ ⟨0, 1, 0⟩ =
      some 5 := by
    unfold Ray3d.intersect_plane
    norm_num [Vec3.dot, Vec3.sub_def]
  have hmain := pan_update_spec v2w_topdown ⟨0, 0, 0⟩ ⟨0, 1, 0⟩ ⟨3, 4⟩ ⟨1, 2⟩
    ⟨⟨0, 5, 0⟩, ⟨0, 0, 0⟩⟩ CameraSettings.default _ _ _ _ h1 h2 h3 h4
  exact ⟨⟨h1, h2, h3, h4⟩, hmain.1, hmain.2.2.1⟩

/-! Pan round trip.  The focus displacement of one successful pan equals
the difference of two ray-plane intersection points; whether two
consecutive pans with opposite motion deltas cancel therefore depends on
the engine's viewport-to-world map.  Below, an orthographic-style (affine)
camera model, for which the round trip is exact, and further down a
perspective (pinhole) model, for which it is not. -/

theorem intersect_plane_eq_some (r : Ray3d) (q n : Vec3)
    (hD : n.dot r.direction ≠ 0) (hpos : 0 < planeDist r q n) :
    r.intersect_plane q n = some (planeDist r q n) := by
  have hpos' : ¬ ((q - r.origin).dot n / n.dot r.direction ≤ 0) := by
    unfold planeDist at hpos
    linarith
  simp only [Ray3d.intersect_plane, if_neg hD, if_neg hpos']
  rfl

theorem affine_pan_step (base dx dy dir q n : Vec3) (c M : Vec2)
    (cam : Transform) (s : CameraSettings)
    (hD : n.dot dir ≠ 0)
    (h1 : 0 < planeDist (affineRay base dx dy dir cam c) q n)
    (h2 : 0 < planeDist (affineRay base dx dy dir cam (c + M)) q n) :
    draw_cursor (v2w_affine base dx dy dir) q n true M (some c) cam s =
      ⟨⟨(s.should_focus_at - affineShift dx dy dir n M) -
          s.orbit_distance • cam.rotation.forward,
        cam.rotation⟩,
       { s with
         should_focus_at := s.should_focus_at - affineShift dx dy dir n M },
       none⟩ := by
  have e1 : (v2w_affine base dx dy dir) cam c =
      some (affineRay base dx dy dir cam c) := rfl
  have e3 : (v2w_affine base dx dy dir) cam (c + M) =
      some (affineRay base dx dy dir cam (c + M)) := rfl
  have e2 := intersect_plane_eq_some (affineRay base dx dy dir cam c) q n hD h1
  have e4 := intersect_plane_eq_some (affineRay base dx dy dir cam (c + M)) q n hD h2
  rw [draw_cursor_pan_eq (v2w_affine base dx dy dir) q n M c cam s _ _ _ _
    e1 e2 e3 e4]
  have hD' : n.x * dir.x + n.y * dir.y + n.z * dir.z ≠ 0 := by
    simpa [Vec3.dot] using hD
  have hpt : (affineRay base dx dy dir cam (c + M)).get_point
        (planeDist (affineRay base dx dy dir cam (c + M)) q n) -
      (affineRay base dx dy dir cam c).get_point
        (planeDist (affineRay base dx dy dir cam c) q n) =
      affineShift dx dy dir n M := by
    simp only [affineRay, Ray3d.get_point, planeDist, affineShift, Vec2.add_expand,
      Vec3.add_def, Vec3.sub_def, Vec3.smul_def, Vec3.dot, Vec3.mk.injEq]
    refine ⟨?_, ?_, ?_⟩ <;> field_simp <;> ring
  rw [hpt]

theorem affineShift_neg (dx dy dir n : Vec3) (M : Vec2) :
    affineShift dx dy dir n (-M) = -(affineShift dx dy dir n M) := by
  simp only [affineShift, Vec2.neg_expand, Vec3.add_def, Vec3.sub_def,
    Vec3.smul_def, Vec3.neg_def, Vec3.dot, Vec3.mk.injEq]
  refine ⟨by ring, by ring, by ring⟩

/-- Claim C7 as amended: under an orthographic-style (affine)
viewport-to-world map, panning by motion vector M in one frame and by -M
in the immediately following frame, with the same starting cursor
position and both pans successful, returns the focus point exactly to
its original value.  (For a perspective camera the pixel-to-ground map is
projective rather than affine and the round trip misses by a
second-order term; see the counterexample.) -/
theorem pan_round_trip_affine (base dx dy dir q n : Vec3) (c M : Vec2)
    (cam : Transform) (s : CameraSettings)
    (hD : n.dot dir ≠ 0)
    (h1 : 0 < planeDist (affineRay base dx dy dir cam c) q n)
    (h2 : 0 < planeDist (affineRay base dx dy dir cam (c + M)) q n)
    (h3 : 0 < planeDist (affineRay base dx dy dir
        (draw_cursor (v2w_affine base dx dy dir) q n true M (some c) cam
          s).camera c) q n)
    (h4 : 0 < planeDist (affineRay base dx dy dir
        (draw_cursor (v2w_affine base dx dy dir) q n true M (some c) cam
          s).camera (c + -M)) q n) :
    (draw_cursor (v2w_affine base dx dy dir) q n true (-M) (some c)
        (draw_cursor (v2w_affine base dx dy dir) q n true M (some c) cam
          s).camera
        (draw_cursor (v2w_affine base dx dy dir) q n true M (some c) cam
          s).settings).settings.should_focus_at =
      s.should_focus_at := by
  rw [affine_pan_step base dx dy dir q n c M cam s hD h1 h2] at h3 h4 ⊢
  rw [affine_pan_step base dx dy dir q n c (-M) _ _ hD h3 h4]
  rw [affineShift_neg]
  show (s.should_focus_at - affineShift dx dy dir n M) -
      -(affineShift dx dy dir n M) = s.should_focus_at
  exact Vec3.sub_sub_neg _ _

/-- Witness for the amended claim C7 at concrete inputs: top-down affine
camera (rays straight down, pixel (x, y) offset to world (x, 0, y)),
ground plane through the origin with normal +Y, camera at (0, 5, 0)
looking straight down, cursor (0, 0), motion (1, 2). -/
theorem pan_round_trip_affine_witness :
    (Vec3.dot ⟨0, 1, 0⟩ ⟨0, -1, 0⟩ ≠ 0 ∧
      0 < planeDist (affineRay ⟨0, 0, 0⟩ ⟨1, 0, 0⟩ ⟨0, 0, 1⟩ ⟨0, -1, 0⟩
        ⟨⟨0, 5, 0⟩, ⟨0, -(Real.pi / 2), 0⟩⟩ ⟨0, 0⟩) ⟨0, 0, 0⟩ ⟨0, 1, 0⟩ ∧
      0 < planeDist (affineRay ⟨0, 0, 0⟩ ⟨1, 0, 0⟩ ⟨0, 0, 1⟩ ⟨0, -1, 0⟩
        ⟨⟨0, 5, 0⟩, ⟨0, -(Real.pi / 2), 0⟩⟩ ((⟨0, 0⟩ : Vec2) + ⟨1, 2⟩))
        ⟨0, 0, 0⟩ ⟨0, 1, 0⟩ ∧
      0 < planeDist (affineRay ⟨0, 0, 0⟩ ⟨1, 0, 0⟩ ⟨0, 0, 1⟩ ⟨0, -1, 0⟩
        (draw_cursor (v2w_affine ⟨0, 0, 0⟩ ⟨1, 0, 0⟩ ⟨0, 0, 1⟩ ⟨0, -1, 0⟩)
          ⟨0, 0, 0⟩ ⟨0, 1, 0⟩ true ⟨1, 2⟩ (some ⟨0, 0⟩)
          ⟨⟨0, 5, 0⟩, ⟨0, -(Real.pi / 2), 0⟩⟩ CameraSettings.default).camera
        ⟨0, 0⟩) ⟨0, 0, 0⟩ ⟨0, 1, 0⟩ ∧
      0 < planeDist (affineRay ⟨0, 0, 0⟩ ⟨1, 0, 0⟩ ⟨0, 0, 1⟩ ⟨0, -1, 0⟩
        (draw_cursor (v2w_affine ⟨0, 0, 0⟩ ⟨1, 0, 0⟩ ⟨0, 0, 1⟩ ⟨0, -1, 0⟩)
          ⟨0, 0, 0⟩ ⟨0, 1, 0⟩ true ⟨1, 2⟩ (some ⟨0, 0⟩)
          ⟨⟨0, 5, 0⟩, ⟨0, -(Real.pi / 2), 0⟩⟩ CameraSettings.default).camera
        ((⟨0, 0⟩ : Vec2) + -(⟨1, 2⟩ : Vec2))) ⟨0, 0, 0⟩ ⟨0, 1, 0⟩) ∧
    (draw_cursor (v2w_affine ⟨0, 0, 0⟩ ⟨1, 0, 0⟩ ⟨0, 0, 1⟩ ⟨0, -1, 0⟩)
        ⟨0, 0, 0⟩ ⟨0, 1, 0⟩ true (-(⟨1, 2⟩ : Vec2)) (some ⟨0, 0⟩)
        (draw_cursor (v2w_affine ⟨0, 0, 0⟩ ⟨1, 0, 0⟩ ⟨0, 0, 1⟩ ⟨0, -1, 0⟩)
          ⟨0, 0, 0⟩ ⟨0, 1, 0⟩ true ⟨1, 2⟩ (some ⟨0, 0⟩)
          ⟨⟨0, 5, 0⟩, ⟨0, -(Real.pi / 2), 0⟩⟩ CameraSettings.default).camera
        (draw_cursor (v2w_affine ⟨0, 0, 0⟩ ⟨1, 0, 0⟩ ⟨0, 0, 1⟩ ⟨0, -1, 0⟩)
          ⟨0, 0, 0⟩ ⟨0, 1, 0⟩ true ⟨1, 2⟩ (some ⟨0, 0⟩)
          ⟨⟨0, 5, 0⟩, ⟨0, -(Real.pi / 2), 0⟩⟩
          CameraSettings.default).settings).settings.should_focus_at =
      CameraSettings.default.should_focus_at := by
  have hD : Vec3.dot ⟨0, 1, 0⟩ ⟨0, -1, 0⟩ ≠ 0 := by
    norm_num [Vec3.dot]
  have h1 : 0 < planeDist (affineRay ⟨0, 0, 0⟩ ⟨1, 0, 0⟩ ⟨0, 0, 1⟩ ⟨0, -1, 0⟩
      ⟨⟨0, 5, 0⟩, ⟨0, -(Real.pi / 2), 0⟩⟩ ⟨0, 0⟩) ⟨0, 0, 0⟩ ⟨0, 1, 0⟩ := by
    norm_num [planeDist, affineRay, Vec3.dot, Vec3.add_def, Vec3.sub_def,
      Vec3.smul_def]
  have h2 : 0 < planeDist (affineRay ⟨0, 0, 0⟩ ⟨1, 0, 0⟩ ⟨0, 0, 1⟩ ⟨0, -1, 0⟩
      ⟨⟨0, 5, 0⟩, ⟨0, -(Real.pi / 2), 0⟩⟩ ((⟨0, 0⟩ : Vec2) + ⟨1, 2⟩))
      ⟨0, 0, 0⟩ ⟨0, 1, 0⟩ := by
    norm_num [planeDist, affineRay, Vec3.dot, Vec3.add_def, Vec3.sub_def,
      Vec3.smul_def, Vec2.add_expand]
  have hstep := affine_pan_step ⟨0, 0, 0⟩ ⟨1, 0, 0⟩ ⟨0, 0, 1⟩ ⟨0, -1, 0⟩
    ⟨0, 0, 0⟩ ⟨0, 1, 0⟩ ⟨0, 0⟩ ⟨1, 2⟩ ⟨⟨0, 5, 0⟩, ⟨0, -(Real.pi / 2), 0⟩⟩
    CameraSettings.default hD h1 h2
  have h3 : 0 < planeDist (affineRay ⟨0, 0, 0⟩ ⟨1, 0, 0⟩ ⟨0, 0, 1⟩ ⟨0, -1, 0⟩
      (draw_cursor (v2w_affine ⟨0, 0, 0⟩ ⟨1, 0, 0⟩ ⟨0, 0, 1⟩ ⟨0, -1, 0⟩)
        ⟨0, 0, 0⟩ ⟨0, 1, 0⟩ true ⟨1, 2⟩ (some ⟨0, 0⟩)
        ⟨⟨0, 5, 0⟩, ⟨0, -(Real.pi / 2), 0⟩⟩ CameraSettings.default).camera
      ⟨0, 0⟩) ⟨0, 0, 0⟩ ⟨0, 1, 0⟩ := by
    rw [hstep]
    norm_num [planeDist, affineRay, affineShift, Vec3.dot, Vec3.add_def,
      Vec3.sub_def, Vec3.smul_def, Rotation.forward, Real.sin_neg,
      Real.cos_neg, Real.sin_pi_div_two, Real.cos_pi_div_two, Real.sin_zero,
      Real.cos_zero, CameraSettings.default]
  have h4 : 0 < planeDist (affineRay ⟨0, 0, 0⟩ ⟨1, 0, 0⟩ ⟨0, 0, 1⟩ ⟨0, -1, 0⟩
      (draw_cursor (v2w_affine ⟨0, 0, 0⟩ ⟨1, 0, 0⟩ ⟨0, 0, 1⟩ ⟨0, -1, 0⟩)
        ⟨0, 0, 0⟩ ⟨0, 1, 0⟩ true ⟨1, 2⟩ (some ⟨0, 0⟩)
        ⟨⟨0, 5, 0⟩, ⟨0, -(Real.pi / 2), 0⟩⟩ CameraSettings.default).camera
      ((⟨0, 0⟩ : Vec2) + -(⟨1, 2⟩ : Vec2))) ⟨0, 0, 0⟩ ⟨0, 1, 0⟩ := by
    rw [hstep]
    norm_num [planeDist, affineRay, affineShift, Vec3.dot, Vec3.add_def,
      Vec3.sub_def, Vec3.smul_def, Vec2.add_expand, Vec2.neg_expand,
      Rotation.forward, Real.sin_neg, Real.cos_neg, Real.sin_pi_div_two,
      Real.cos_pi_div_two, Real.sin_zero, Real.cos_zero,
      CameraSettings.default]
  exact ⟨⟨hD, h1, h2, h3, h4⟩,
    pan_round_trip_affine ⟨0, 0, 0⟩ ⟨1, 0, 0⟩ ⟨0, 0, 1⟩ ⟨0, -1, 0⟩ ⟨0, 0, 0⟩
      ⟨0, 1, 0⟩ ⟨0, 0⟩ ⟨1, 2⟩ ⟨⟨0, 5, 0⟩, ⟨0, -(Real.pi / 2), 0⟩⟩
      CameraSettings.default hD h1 h2 h3 h4⟩

/-- Claim C7, counterexample: with the perspective (pinhole) camera
model, panning by motion (0, 1/2) and then by (0, -1/2) from the same
cursor position does not return the focus point: it ends at
(0, 0, -1/3), while it started at (0, 0, -1) — off by 2/3 of a world
unit, far beyond floating-point tolerance.  Both frames' ray casts and
plane intersections succeed, so both frames genuinely pan. -/
theorem pan_round_trip_cex :
    panFrame2.settings.should_focus_at ≠ panCexSettings.should_focus_at ∧
    panFrame2.settings.should_focus_at = ⟨0, 0, -(1 / 3)⟩ ∧
    panCexSettings.should_focus_at = ⟨0, 0, -1⟩ := by
  have e1 : v2w_pinhole panCexCam ⟨0, 0⟩ =
      some ⟨⟨0, 1, 0⟩, ⟨0, 0 - 1, -1⟩⟩ := rfl
  have e2 : Ray3d.intersect_plane ⟨⟨0, 1, 0⟩, ⟨0, 0 - 1, -1⟩⟩ ⟨0, 0, 0⟩
      ⟨0, 1, 0⟩ = some 1 := by
    unfold Ray3d.intersect_plane
    norm_num [Vec3.dot, Vec3.sub_def]
  have e3 : v2w_pinhole panCexCam ((⟨0, 0⟩ : Vec2) + ⟨0, 1 / 2⟩) =
      some ⟨⟨0, 1, 0⟩, ⟨0 + 0, (0 + 1 / 2) - 1, -1⟩⟩ := rfl
  have e4 : Ray3d.intersect_plane ⟨⟨0, 1, 0⟩, ⟨0 + 0, (0 + 1 / 2) - 1, -1⟩⟩
      ⟨0, 0, 0⟩ ⟨0, 1, 0⟩ = some 2 := by
    unfold Ray3d.intersect_plane
    norm_num [Vec3.dot, Vec3.sub_def]
  have hstep1 := draw_cursor_pan_eq v2w_pinhole ⟨0, 0, 0⟩ ⟨0, 1, 0⟩
    ⟨0, 1 / 2⟩ ⟨0, 0⟩ panCexCam panCexSettings _ _ _ _ e1 e2 e3 e4
  have hrt2 : Real.sqrt 2 * Real.sqrt 2 = 2 :=
    Real.mul_self_sqrt (by norm_num)
  have hc1 : panFrame1.camera = ⟨⟨0, 1, 1⟩, ⟨0, -(Real.pi / 4), 0⟩⟩ := by
    unfold panFrame1
    rw [hstep1]
    simp only [panCexSettings, panCexCam, CameraSettings.default,
      Transform.mk.injEq, Ray3d.get_point, Rotation.forward, Vec3.add_def,
      Vec3.sub_def, Vec3.smul_def, Real.sin_neg, Real.cos_neg,
      Real.sin_pi_div_four, Real.cos_pi_div_four, Real.sin_zero,
      Real.cos_zero, Vec3.mk.injEq, Rotation.mk.injEq]
    norm_num
    nlinarith [hrt2]
  have hs1 : panFrame1.settings =
      { panCexSettings with should_focus_at := ⟨0, 0, 0⟩ } := by
    unfold panFrame1
    rw [hstep1]
    simp only [panCexSettings, CameraSettings.default, CameraSettings.mk.injEq,
      Ray3d.get_point, Vec3.add_def, Vec3.sub_def, Vec3.smul_def,
      Vec3.mk.injEq]
    norm_num
  have e1' : v2w_pinhole ⟨⟨0, 1, 1⟩, ⟨0, -(Real.pi / 4), 0⟩⟩ ⟨0, 0⟩ =
      some ⟨⟨0, 1, 1⟩, ⟨0, 0 - 1, -1⟩⟩ := rfl
  have e2' : Ray3d.intersect_plane ⟨⟨0, 1, 1⟩, ⟨0, 0 - 1, -1⟩⟩ ⟨0, 0, 0⟩
      ⟨0, 1, 0⟩ = some 1 := by
    unfold Ray3d.intersect_plane
    norm_num [Vec3.dot, Vec3.sub_def]
  have e3' : v2w_pinhole ⟨⟨0, 1, 1⟩, ⟨0, -(Real.pi / 4), 0⟩⟩
      ((⟨0, 0⟩ : Vec2) + ⟨0, -(1 / 2)⟩) =
      some ⟨⟨0, 1, 1⟩, ⟨0 + 0, (0 + -(1 / 2)) - 1, -1⟩⟩ := rfl
  have e4' : Ray3d.intersect_plane
      ⟨⟨0, 1, 1⟩, ⟨0 + 0, (0 + -(1 / 2)) - 1, -1⟩⟩ ⟨0, 0, 0⟩ ⟨0, 1, 0⟩ =
      some (2 / 3) := by
    unfold Ray3d.intersect_plane
    norm_num [Vec3.dot, Vec3.sub_def]
  have hstep2 := draw_cursor_pan_eq v2w_pinhole ⟨0, 0, 0⟩ ⟨0, 1, 0⟩
    ⟨0, -(1 / 2)⟩ ⟨0, 0⟩ ⟨⟨0, 1, 1⟩, ⟨0, -(Real.pi / 4), 0⟩⟩
    { panCexSettings with should_focus_at := ⟨0, 0, 0⟩ } _ _ _ _
    e1' e2' e3' e4'
  have hfocus2 : panFrame2.settings.should_focus_at = ⟨0, 0, -(1 / 3)⟩ := by
    unfold panFrame2
    rw [hc1, hs1, hstep2]
    simp only [panCexSettings, CameraSettings.default, Ray3d.get_point,
      Vec3.add_def, Vec3.sub_def, Vec3.smul_def, Vec3.mk.injEq]
    norm_num
  have hfocus0 : panCexSettings.should_focus_at = ⟨0, 0, -1⟩ := rfl
  refine ⟨?_, hfocus2, hfocus0⟩
  rw [hfocus2, hfocus0]
  intro hcontra
  simp only [Vec3.mk.injEq] at hcontra
  norm_num at hcontra
